import Mathlib

/-!
Verification of the dispo truck-assignment repository.

The development shallowly embeds the two relevant programs:

* `Dispo` — `src/dispo/dispo.py`, the canonical PuLP-based optimal
  assignment pipeline (haversine distance, feasibility analysis,
  LP model construction, result extraction).
* `Claude2` — `src/dispo/_archive/claude-2.py`, the greedy strategies
  (GreedyNearest, PriorityFirst), their score function and the
  result analyzer.

Python floats are modelled as real numbers; `float('inf')` returned by
`calculate_travel_time_h` is modelled by the top element of `EReal`.
Python dictionaries keyed by `(truck_id, order_id)` are modelled as
association lists in loop order.
-/

set_option maxHeartbeats 1000000

namespace Dispo

/-- Constant `AVERAGE_SPEED_KMH = 80.0` from the configuration block. -/
def AVERAGE_SPEED_KMH : ℝ := 80.0

/-- Constant `PRIORITY_WEIGHT_FACTOR = 10000`. -/
def PRIORITY_WEIGHT_FACTOR : ℝ := 10000

/-- Constant `DISTANCE_COST_FACTOR = 1`. -/
def DISTANCE_COST_FACTOR : ℝ := 1

/-- The dictionary `PRIORITIES_MAP = {1: 3, 2: 2, 3: 1}` read through
`PRIORITIES_MAP.get(p, 0)`, which returns 0 for a key not present. -/
def PRIORITIES_MAP_get (p : ℤ) : ℤ :=
  if p = 1 then 3 else if p = 2 then 2 else if p = 3 then 1 else 0

/-- Python `math.radians`: degrees to radians. -/
noncomputable def radians (x : ℝ) : ℝ := x * Real.pi / 180

/-- Python `round(x, 2)`: rounding to two decimal places, modelled with
Mathlib round-half-up rounding.  CPython rounds exact half-cent ties to
even instead; none of the properties proved below depend on the
direction of ties. -/
noncomputable def round2 (x : ℝ) : ℝ := ((round (x * 100) : ℤ) : ℝ) / 100

/-- The haversine quantity `a` computed by `calculate_distance`. -/
noncomputable def haversine_a (point1 point2 : ℝ × ℝ) : ℝ :=
  let lat1 := radians point1.1
  let lon1 := radians point1.2
  let lat2 := radians point2.1
  let lon2 := radians point2.2
  let dlat := lat2 - lat1
  let dlon := lon2 - lon1
  Real.sin (dlat / 2) ^ 2 +
    Real.cos lat1 * Real.cos lat2 * Real.sin (dlon / 2) ^ 2

/-- The central angle `c = 2 * asin(sqrt(a))` of the haversine
formula, shared by both variants of `calculate_distance`. -/
noncomputable def haversine_c (point1 point2 : ℝ × ℝ) : ℝ :=
  2 * Real.arcsin (Real.sqrt (haversine_a point1 point2))

/-- `calculate_distance(point1, point2)` from dispo.py: haversine distance
in kilometres between two `(latitude, longitude)` pairs, rounded to
two decimals (`c = 2 * asin(sqrt(a))`, `r = 6371`, `round(c * r, 2)`). -/
noncomputable def calculate_distance (point1 point2 : ℝ × ℝ) : ℝ :=
  round2 (haversine_c point1 point2 * 6371)

open Classical in
/-- `calculate_travel_time_h(distance_km)` from dispo.py.  The branch for
`AVERAGE_SPEED_KMH <= 0` returns `float('inf')`, modelled as the top
element of `EReal`. -/
noncomputable def calculate_travel_time_h (distance_km : ℝ) : EReal :=
  if AVERAGE_SPEED_KMH ≤ 0 then ⊤
  else ((distance_km / AVERAGE_SPEED_KMH : ℝ) : EReal)

/-- Real value of the (always finite) travel time, used by the
feasibility computations downstream of `calculate_travel_time_h`. -/
noncomputable def travel_time (d : ℝ) : ℝ := (calculate_travel_time_h d).toReal

/-- Truck entity from dispo.py (`location` is a `(lat, lon)` pair). -/
structure Truck where
  truck_id : String
  location : ℝ × ℝ
  capacity_kg : ℝ
  available_from_h : ℝ
  available_until_h : ℝ

/-- Order entity from dispo.py. -/
structure Order where
  order_id : String
  loading_site : ℝ × ℝ
  unloading_site : ℝ × ℝ
  weight_kg : ℝ
  loading_window_early_h : ℝ
  loading_window_late_h : ℝ
  loading_duration_h : ℝ
  unloading_duration_h : ℝ
  priority : ℤ

/-- `approach_distance` in `determine_permissible_pairs_and_values`. -/
noncomputable def approach_distance (t : Truck) (o : Order) : ℝ :=
  calculate_distance t.location o.loading_site

/-- `arrival_loading_site_truck_h` in the feasibility loop. -/
noncomputable def arrival_loading_site_truck_h (t : Truck) (o : Order) : ℝ :=
  t.available_from_h + travel_time (approach_distance t o)

/-- `loading_start_calc_h` in the feasibility loop. -/
noncomputable def loading_start_calc_h (t : Truck) (o : Order) : ℝ :=
  max (arrival_loading_site_truck_h t o) o.loading_window_early_h

/-- `latest_loading_start_order_h` in the feasibility loop. -/
def latest_loading_start_order_h (o : Order) : ℝ :=
  o.loading_window_late_h - o.loading_duration_h

/-- `loading_end_calc_h` in the feasibility loop. -/
noncomputable def loading_end_calc_h (t : Truck) (o : Order) : ℝ :=
  loading_start_calc_h t o + o.loading_duration_h

/-- `transport_distance` in the feasibility loop. -/
noncomputable def transport_distance (o : Order) : ℝ :=
  calculate_distance o.loading_site o.unloading_site

/-- `arrival_unloading_site_calc_h` in the feasibility loop. -/
noncomputable def arrival_unloading_site_calc_h (t : Truck) (o : Order) : ℝ :=
  loading_end_calc_h t o + travel_time (transport_distance o)

/-- `unloading_end_calc_h` in the feasibility loop. -/
noncomputable def unloading_end_calc_h (t : Truck) (o : Order) : ℝ :=
  arrival_unloading_site_calc_h t o + o.unloading_duration_h

/-- The pair `(truck, order)` survives the feasibility loop: the three
`continue` statements of `determine_permissible_pairs_and_values` are
negated in code order (capacity, latest loading start with the 0.01
epsilon, end of tour versus truck availability with the 0.01 epsilon). -/
noncomputable def permissible (t : Truck) (o : Order) : Prop :=
  ¬ (t.capacity_kg < o.weight_kg) ∧
  ¬ (loading_start_calc_h t o > latest_loading_start_order_h o + 0.01) ∧
  ¬ (unloading_end_calc_h t o > t.available_until_h + 0.01)

/-- Record of per-pair values stored in the `permissible_pairs` dict. -/
structure PairRecord where
  distanz_anfahrt : ℝ
  distanz_transport : ℝ
  distanz_gesamt_fuer_auftrag : ℝ
  prio_original : ℤ
  prio_gewicht : ℤ
  anfahrt_lkw_h : ℝ
  ladebeginn_calc_h : ℝ
  ladeende_calc_h : ℝ
  ankunft_entladestelle_calc_h : ℝ
  entladung_ende_calc_h : ℝ
  gesamtdauer_auftrag_ab_lkw_start_h : ℝ

/-- The record stored for a retained pair, field for field as in the
dictionary literal of `determine_permissible_pairs_and_values`. -/
noncomputable def mkPairRecord (t : Truck) (o : Order) : PairRecord where
  distanz_anfahrt := approach_distance t o
  distanz_transport := transport_distance o
  distanz_gesamt_fuer_auftrag := approach_distance t o + transport_distance o
  prio_original := o.priority
  prio_gewicht := PRIORITIES_MAP_get o.priority
  anfahrt_lkw_h := arrival_loading_site_truck_h t o
  ladebeginn_calc_h := loading_start_calc_h t o
  ladeende_calc_h := loading_end_calc_h t o
  ankunft_entladestelle_calc_h := arrival_unloading_site_calc_h t o
  entladung_ende_calc_h := unloading_end_calc_h t o
  gesamtdauer_auftrag_ab_lkw_start_h := unloading_end_calc_h t o - t.available_from_h

open Classical in
/-- The `(truck, order)` pairs retained by the nested loop of
`determine_permissible_pairs_and_values`, in loop order: iterate trucks
outermost, orders innermost (`List.product`), keep the pairs that pass
all checks. -/
noncomputable def determinePairsTO (ts : List Truck) (os : List Order) :
    List (Truck × Order) :=
  (ts.product os).filter fun p => permissible p.1 p.2

/-- `determine_permissible_pairs_and_values(truck_list, order_list)`:
the returned dict, modelled as an association list from
`(truck_id, order_id)` keys to the stored value records, in insertion
order. -/
noncomputable def determine_permissible_pairs_and_values
    (ts : List Truck) (os : List Order) :
    List ((String × String) × PairRecord) :=
  (determinePairsTO ts os).map fun p =>
    ((p.1.truck_id, p.2.order_id), mkPairRecord p.1 p.2)

/-- Objective sense of a PuLP problem. -/
inductive ObjSense where
  | maximize
  | minimize
deriving DecidableEq

/-- A 0/1 solution of the model: the value of each binary decision
variable `x[(truck_id, order_id)]`, indexed by the dict key. -/
def Sol : Type := String × String → Bool

/-- Value of the binary variable for key `k` under solution `sol`
(`1.0` or `0.0` as a PuLP variable value). -/
def xval (sol : Sol) (k : String × String) : ℝ :=
  if sol k then 1 else 0

/-- `net_value_assignment` for one pair in the objective loop of
`create_lp_model`: `PRIORITY_WEIGHT_FACTOR * prio_gewicht -
DISTANCE_COST_FACTOR * distanz_gesamt_fuer_auftrag`. -/
def net_value_assignment (r : PairRecord) : ℝ :=
  PRIORITY_WEIGHT_FACTOR * (r.prio_gewicht : ℝ) -
    DISTANCE_COST_FACTOR * r.distanz_gesamt_fuer_auftrag

/-- The LP problem built by `create_lp_model`, abstracted to its
mathematical content: the sense, the objective as a function of a 0/1
solution, and the conjunction of all constraints as a predicate on
solutions. -/
structure LpModel where
  sense : ObjSense
  objective : Sol → ℝ
  feasibleSol : Sol → Prop

/-- Constraint `Order_<id>_max_once` for one order: the sum of the
variables `x[(t.truck_id, o.order_id)]` over the trucks whose key is in
the variable dict is at most 1 (the list comprehension inside `lpSum`). -/
def order_constraint (keys : List (String × String)) (ts : List Truck)
    (o : Order) (sol : Sol) : Prop :=
  ((ts.filter fun t => (t.truck_id, o.order_id) ∈ keys).map fun t =>
    xval sol (t.truck_id, o.order_id)).sum ≤ 1

/-- Constraint `Truck_<id>_max_one_order` for one truck. -/
def truck_constraint (keys : List (String × String)) (os : List Order)
    (t : Truck) (sol : Sol) : Prop :=
  ((os.filter fun o => (t.truck_id, o.order_id) ∈ keys).map fun o =>
    xval sol (t.truck_id, o.order_id)).sum ≤ 1

/-- `create_lp_model(truck_list, order_list, permissible_pairs_with_values)`:
an `LpMaximize` problem whose objective sums
`net_value_assignment * x` over the permissible pairs and whose
constraints are `order_constraint` for every order and
`truck_constraint` for every truck. -/
def create_lp_model (ts : List Truck) (os : List Order)
    (pairs : List ((String × String) × PairRecord)) : LpModel where
  sense := .maximize
  objective := fun sol =>
    (pairs.map fun kr => net_value_assignment kr.2 * xval sol kr.1).sum
  feasibleSol := fun sol =>
    (∀ o ∈ os, order_constraint (pairs.map Prod.fst) ts o sol) ∧
    (∀ t ∈ ts, truck_constraint (pairs.map Prod.fst) os t sol)

/-- The assignment keys extracted by `extract_and_show_results`: the
keys whose binary variable is on (`varValue > 0.5`), kept only when the
truck id and the order id resolve to an input truck and order (the
`next(...)` lookups; a failed lookup is skipped with a warning). -/
def extract_assignment_keys (pairs : List ((String × String) × PairRecord))
    (sol : Sol) (ts : List Truck) (os : List Order) :
    List (String × String) :=
  (((pairs.map Prod.fst).filter fun k => sol k).filter fun k =>
    (ts.any fun t => t.truck_id == k.1) && (os.any fun o => o.order_id == k.2))

end Dispo

namespace Claude2

/-- Weight constant `DISTANCE_WEIGHT = 1.0`. -/
def DISTANCE_WEIGHT : ℝ := 1.0

/-- Weight constant `PRIORITY_WEIGHT = 0.8`. -/
def PRIORITY_WEIGHT : ℝ := 0.8

/-- Weight constant `CAPACITY_WEIGHT = 0.6`. -/
def CAPACITY_WEIGHT : ℝ := 0.6

/-- Weight constant `TIME_WEIGHT = 0.4`. -/
def TIME_WEIGHT : ℝ := 0.4

/-- Enum `Priority` from claude-2.py. -/
inductive Priority where
  | URGENT
  | HIGH
  | NORMAL
  | LOW
deriving DecidableEq

/-- Enum `TruckType` from claude-2.py. -/
inductive TruckType where
  | KLEIN
  | STANDARD
  | GROSS
  | SPEZIAL
deriving DecidableEq

/-- Truck dataclass from claude-2.py.  The `__post_init__` validation
(positive capacity, load within bounds) is stated as hypotheses of the
theorems that need it. -/
structure Truck where
  truck_id : String
  lat : ℝ
  lon : ℝ
  capacity : ℝ
  current_load : ℝ
  truck_type : TruckType
  driver_name : String := ""
  max_driving_time : ℝ := 8.0
  cost_per_km : ℝ := 1.2

/-- Property `Truck.available_capacity`. -/
def Truck.available_capacity (t : Truck) : ℝ := t.capacity - t.current_load

/-- Property `Truck.position`. -/
def Truck.position (t : Truck) : ℝ × ℝ := (t.lat, t.lon)

open Classical in
/-- Property `Truck.utilization_percent` (guards against a
non-positive capacity, returning 0). -/
noncomputable def Truck.utilization_percent (t : Truck) : ℝ :=
  if t.capacity > 0 then t.current_load / t.capacity * 100 else 0

/-- Order dataclass from claude-2.py.  `assigned_truck is None` is
modelled by `Option`. -/
structure Order where
  order_id : String
  pickup_lat : ℝ
  pickup_lon : ℝ
  delivery_lat : ℝ
  delivery_lon : ℝ
  volume : ℝ
  priority : Priority
  customer : String
  deadline_hours : ℝ := 24.0
  value : ℝ := 1000.0
  assigned_truck : Option String := none

/-- Property `Order.pickup_position`. -/
def Order.pickup_position (o : Order) : ℝ × ℝ := (o.pickup_lat, o.pickup_lon)

/-- Property `Order.delivery_position`. -/
def Order.delivery_position (o : Order) : ℝ × ℝ :=
  (o.delivery_lat, o.delivery_lon)

/-- Property `Order.priority_score`: dictionary lookup with default 1.0;
the dictionary covers the whole enum, so the default is dead. -/
def Order.priority_score (o : Order) : ℝ :=
  match o.priority with
  | .URGENT => 0.1
  | .HIGH => 0.3
  | .NORMAL => 1.0
  | .LOW => 2.0

/-- Property `Order.is_assigned`. -/
def Order.is_assigned (o : Order) : Bool := o.assigned_truck.isSome

/-- Method `Truck.can_handle_order`. -/
def Truck.can_handle_order (t : Truck) (o : Order) : Prop :=
  o.volume ≤ t.available_capacity

/-- Assignment dataclass from claude-2.py.  The wall-clock field
`assignment_time` (set from `datetime.now()`) is external input and
omitted from the model. -/
structure Assignment where
  truck_id : String
  order_id : String
  distance_km : ℝ
  estimated_duration : ℝ
  total_cost : ℝ
  score : ℝ

/-- `calculate_distance(pos1, pos2)` from claude-2.py: unrounded
haversine distance (`radius * c`).  The `try` block cannot raise for
real-valued inputs, so the `except` branch returning `float('inf')` is
not modelled. -/
noncomputable def calculate_distance (pos1 pos2 : ℝ × ℝ) : ℝ :=
  Dispo.haversine_c pos1 pos2 * 6371

open Classical in
/-- `estimate_travel_time(distance_km, avg_speed_kmh)` from claude-2.py
(returns 0 when the speed is not positive). -/
noncomputable def estimate_travel_time (distance_km : ℝ)
    (avg_speed_kmh : ℝ := 50.0) : ℝ :=
  if avg_speed_kmh > 0 then distance_km / avg_speed_kmh else 0

/-- Detail dictionary returned by `calculate_assignment_score`. -/
structure ScoreDetails where
  distance : ℝ
  priority : ℝ
  capacity : ℝ
  time : ℝ
  raw_distance_km : ℝ
  travel_time_hours : ℝ

/-- `calculate_assignment_score(truck, order)` from claude-2.py:
total score (lower is better) plus the detail dictionary. -/
noncomputable def calculate_assignment_score (truck : Truck) (order : Order) :
    ℝ × ScoreDetails :=
  let distance := calculate_distance truck.position order.pickup_position
  let distance_score := distance * DISTANCE_WEIGHT
  let priority_score := order.priority_score * PRIORITY_WEIGHT
  let capacity_utilization := order.volume / truck.capacity
  let capacity_score := (1.0 - capacity_utilization) * CAPACITY_WEIGHT
  let travel_time := estimate_travel_time distance
  let time_pressure := max 0 (travel_time / order.deadline_hours) * TIME_WEIGHT
  let total_score := distance_score + priority_score + capacity_score + time_pressure
  (total_score,
   { distance := distance_score
     priority := priority_score
     capacity := capacity_score
     time := time_pressure
     raw_distance_km := distance
     travel_time_hours := travel_time })

/-- Stable insertion used to model Python `sorted`: insert `a` before
the first element `b` with `le a b`. -/
def pyInsert (le : α → α → Bool) (a : α) : List α → List α
  | [] => [a]
  | b :: bs => if le a b then a :: b :: bs else b :: pyInsert le a bs

/-- Python `sorted(l, key=...)` modelled as a stable insertion sort over
a boolean comparison. -/
def pySorted (le : α → α → Bool) (l : List α) : List α :=
  l.foldr (pyInsert le) []

/-- `priority_order.index(o.priority)` with
`priority_order = [URGENT, HIGH, NORMAL, LOW]`. -/
def priorityIndex : Priority → ℕ
  | .URGENT => 0
  | .HIGH => 1
  | .NORMAL => 2
  | .LOW => 3

/-- Comparison used by the `sorted` call of `PriorityFirstStrategy`. -/
def priorityLe (a b : Order) : Bool :=
  priorityIndex a.priority ≤ priorityIndex b.priority

open Classical in
/-- Comparison used by the `sorted(..., reverse=True)` call of
`GreedyNearestStrategy` (descending available capacity). -/
noncomputable def capacityGe (a b : Truck) : Bool :=
  decide (b.available_capacity ≤ a.available_capacity)

open Classical in
/-- Python `list.remove(x)`: drop the first element equal to `x`
(dataclass equality; the strategies only remove objects that are
present). -/
noncomputable def eraseFirst (l : List Order) (o : Order) : List Order :=
  match l with
  | [] => []
  | x :: xs => if x = o then xs else x :: eraseFirst xs o

open Classical in
/-- The candidate update inside the truck-selection loop of
`PriorityFirstStrategy.assign`: a feasible truck replaces the incumbent
only when its score is strictly smaller (`best_score` starts at
`float('inf')`, so the first feasible truck always enters). -/
noncomputable def updateBest (best : Option (ℕ × Truck × ℝ × ScoreDetails))
    (i : ℕ) (t : Truck) (sd : ℝ × ScoreDetails) :
    Option (ℕ × Truck × ℝ × ScoreDetails) :=
  match best with
  | none => some (i, t, sd.1, sd.2)
  | some (j, u, bs, bd) =>
      if sd.1 < bs then some (i, t, sd.1, sd.2) else some (j, u, bs, bd)

open Classical in
/-- The loop `for truck in available_trucks` of
`PriorityFirstStrategy.assign`: scan the trucks in list order, keeping
the index, truck, score and details of the best feasible one. -/
noncomputable def findBestTruckAux (o : Order) :
    List Truck → ℕ → Option (ℕ × Truck × ℝ × ScoreDetails) →
    Option (ℕ × Truck × ℝ × ScoreDetails)
  | [], _, best => best
  | t :: ts, i, best =>
      if t.can_handle_order o then
        findBestTruckAux o ts (i + 1) (updateBest best i t (calculate_assignment_score t o))
      else
        findBestTruckAux o ts (i + 1) best

/-- Selection of `best_truck` for one order in
`PriorityFirstStrategy.assign`. -/
noncomputable def findBestTruck (o : Order) (ts : List Truck) :
    Option (ℕ × Truck × ℝ × ScoreDetails) :=
  findBestTruckAux o ts 0 none

/-- Mutable state of a `PriorityFirstStrategy.assign` run: the truck
objects (with accumulated loads), the assignments made so far and the
not-yet-assigned orders. -/
structure PFState where
  trucks : List Truck
  assignments : List Assignment
  avail : List Order

/-- The assignment record built at a commit (the `Assignment(...)`
constructor call; `total_cost = distance * truck.cost_per_km`). -/
noncomputable def mkAssignment (t : Truck) (o : Order) (score : ℝ)
    (details : ScoreDetails) : Assignment where
  truck_id := t.truck_id
  order_id := o.order_id
  distance_km := details.raw_distance_km
  estimated_duration := details.travel_time_hours
  total_cost := details.raw_distance_km * t.cost_per_km
  score := score

/-- Body of the `for order in sorted_orders` loop of
`PriorityFirstStrategy.assign`: find the best feasible truck; on
success append the assignment, add the volume to that truck object
(`truck.current_load += order.volume`, modelled by updating the list
entry at the truck index) and remove the order from the pool.
Trucks are never removed from the candidate list. -/
noncomputable def assignStep (st : PFState) (o : Order) : PFState :=
  match findBestTruck o st.trucks with
  | none => st
  | some (i, t, s, d) =>
      { trucks := st.trucks.set i { t with current_load := t.current_load + o.volume }
        assignments := st.assignments ++ [mkAssignment t o s d]
        avail := eraseFirst st.avail o }

/-- Full `PriorityFirstStrategy.assign` run: filter out already
assigned orders, sort by priority severity, then fold the commit step. -/
noncomputable def priorityFirstRun (ts : List Truck) (os : List Order) : PFState :=
  let avail := os.filter fun o => !o.is_assigned
  let sorted_orders := pySorted priorityLe avail
  List.foldl assignStep { trucks := ts, assignments := [], avail := avail } sorted_orders

/-- Return value `(assignments, available_orders)` of
`PriorityFirstStrategy.assign`. -/
noncomputable def PriorityFirstStrategy.assign (ts : List Truck) (os : List Order) :
    List Assignment × List Order :=
  ((priorityFirstRun ts os).assignments, (priorityFirstRun ts os).avail)

open Classical in
/-- The candidate update inside the order-selection loop of
`GreedyNearestStrategy.assign`: a feasible order replaces the incumbent
only when its score is strictly smaller (`best_score` starts at
`float('inf')`). -/
noncomputable def updateBestOrder (best : Option (Order × ℝ × ScoreDetails))
    (o : Order) (sd : ℝ × ScoreDetails) : Option (Order × ℝ × ScoreDetails) :=
  match best with
  | none => some (o, sd.1, sd.2)
  | some (b, bs, bd) =>
      if sd.1 < bs then some (o, sd.1, sd.2) else some (b, bs, bd)

open Classical in
/-- The loop `for order in available_orders` of
`GreedyNearestStrategy.assign`: scan the orders in list order, keeping
the best feasible one for the given truck. -/
noncomputable def findBestOrderAux (t : Truck) :
    List Order → Option (Order × ℝ × ScoreDetails) →
    Option (Order × ℝ × ScoreDetails)
  | [], best => best
  | o :: os, best =>
      if t.can_handle_order o then
        findBestOrderAux t os (updateBestOrder best o (calculate_assignment_score t o))
      else findBestOrderAux t os best

/-- Selection of `best_order` for one truck in
`GreedyNearestStrategy.assign`. -/
noncomputable def findBestOrder (t : Truck) (os : List Order) :
    Option (Order × ℝ × ScoreDetails) :=
  findBestOrderAux t os none

/-- Body of the `for truck in sorted_trucks` loop of
`GreedyNearestStrategy.assign`, over the state
`(available_orders, assignments)`.  The `truck.current_load` mutation
has no further effect because each truck is visited once. -/
noncomputable def greedyStep (st : List Order × List Assignment) (t : Truck) :
    List Order × List Assignment :=
  match findBestOrder t st.1 with
  | none => st
  | some (o, s, d) => (eraseFirst st.1 o, st.2 ++ [mkAssignment t o s d])

/-- `GreedyNearestStrategy.assign`: trucks sorted by descending
available capacity, each takes its best feasible remaining order. -/
noncomputable def GreedyNearestStrategy.assign (ts : List Truck) (os : List Order) :
    List Assignment × List Order :=
  let avail := os.filter fun o => !o.is_assigned
  let sorted_trucks := pySorted capacityGe ts
  let final := List.foldl greedyStep (avail, []) sorted_trucks
  (final.2, final.1)

open Classical in
/-- Python division: raises `ZeroDivisionError` on a zero divisor. -/
noncomputable def pydiv (a b : ℝ) : Except String ℝ :=
  if b = 0 then .error "ZeroDivisionError" else .ok (a / b)

/-- Python `min` over a list: raises on an empty list. -/
def pymin (l : List ℝ) : Except String ℝ :=
  match l with
  | [] => .error "min of empty sequence"
  | x :: xs => .ok (xs.foldl min x)

/-- Python `max` over a list: raises on an empty list. -/
def pymax (l : List ℝ) : Except String ℝ :=
  match l with
  | [] => .error "max of empty sequence"
  | x :: xs => .ok (xs.foldl max x)

/-- Entry of `analysis['priority_statistics']`. -/
structure PriorityStat where
  total : ℕ
  assigned : ℕ
  rate : ℝ

/-- The analysis dictionary produced by `analyze_assignments`. -/
structure Analysis where
  total_assignments : ℕ
  total_orders : ℕ
  unassigned_orders : ℕ
  assignment_rate : ℝ
  avg_distance_km : ℝ
  min_distance_km : ℝ
  max_distance_km : ℝ
  total_distance_km : ℝ
  total_cost_euro : ℝ
  avg_cost_euro : ℝ
  assigned_volume_tons : ℝ
  total_volume_tons : ℝ
  volume_assignment_rate : ℝ
  avg_truck_utilization : ℝ
  priority_statistics : List (Priority × PriorityStat)

/-- `next(o.volume for o in orders if o.order_id == a.order_id)`:
raises `StopIteration` when no order matches. -/
def lookupVolume (orders : List Order) (a : Assignment) : Except String ℝ :=
  match orders.find? fun o => o.order_id == a.order_id with
  | some o => .ok o.volume
  | none => .error "StopIteration"

open Classical in
/-- One entry of the `priority_statistics` dictionary. -/
noncomputable def priorityStat (orders : List Order) (p : Priority) :
    Except String PriorityStat := do
  let priority_orders := orders.filter fun o => o.priority = p
  let assigned_priority_orders := priority_orders.filter fun o => o.is_assigned
  let rate ← if priority_orders.isEmpty then pure (0 : ℝ)
    else do
      let q ← pydiv (assigned_priority_orders.length : ℝ) (priority_orders.length : ℝ)
      pure (q * 100)
  pure { total := priority_orders.length
         assigned := assigned_priority_orders.length
         rate := rate }

/-- `analysis['assignment_rate']`:
`(len(assignments) / len(orders)) * 100 if orders else 0`. -/
noncomputable def assignmentRateE (assignments : List Assignment)
    (orders : List Order) : Except String ℝ :=
  if orders.isEmpty then pure 0
  else do
    let q ← pydiv (assignments.length : ℝ) (orders.length : ℝ)
    pure (q * 100)

/-- The distance statistics block: `(avg, min, max, total)` distances,
all zero when there are no assignments. -/
noncomputable def distanceStatsE (assignments : List Assignment) :
    Except String (ℝ × ℝ × ℝ × ℝ) :=
  let distances := assignments.map fun a => a.distance_km
  if assignments.isEmpty then pure (0, 0, 0, 0)
  else do
    let avg ← pydiv distances.sum (distances.length : ℝ)
    let mn ← pymin distances
    let mx ← pymax distances
    pure (avg, mn, mx, distances.sum)

/-- The cost statistics block: `(total, avg)` costs, zero when there
are no assignments. -/
noncomputable def costStatsE (assignments : List Assignment) :
    Except String (ℝ × ℝ) :=
  let costs := assignments.map fun a => a.total_cost
  if assignments.isEmpty then pure (0, 0)
  else do
    let avg ← pydiv costs.sum (costs.length : ℝ)
    pure (costs.sum, avg)

/-- `assigned_volume`: sum of the volumes looked up by order id. -/
noncomputable def assignedVolumeE (assignments : List Assignment)
    (orders : List Order) : Except String ℝ := do
  let volumes ← assignments.mapM (lookupVolume orders)
  pure volumes.sum

open Classical in
/-- `analysis['volume_assignment_rate']`. -/
noncomputable def volumeRateE (assigned_volume total_volume : ℝ) :
    Except String ℝ :=
  if total_volume = 0 then pure 0
  else do
    let q ← pydiv assigned_volume total_volume
    pure (q * 100)

/-- `analysis['avg_truck_utilization']`. -/
noncomputable def avgUtilE (trucks : List Truck) : Except String ℝ :=
  let truck_utilizations := trucks.map fun t => t.utilization_percent
  if truck_utilizations.isEmpty then pure 0
  else pydiv truck_utilizations.sum (truck_utilizations.length : ℝ)

/-- `analysis['priority_statistics']`: one entry per enum member, in
enum order. -/
noncomputable def priorityStatsE (orders : List Order) :
    Except String (List (Priority × PriorityStat)) :=
  [Priority.URGENT, Priority.HIGH, Priority.NORMAL, Priority.LOW].mapM
    fun p => do
      let s ← priorityStat orders p
      pure (p, s)

/-- `analyze_assignments(assignments, trucks, orders, unassigned_orders)`
from claude-2.py, with every Python expression that can raise
(`/`, `min`, `max`, `next`) modelled in the `Except` monad. -/
noncomputable def analyze_assignments (assignments : List Assignment)
    (trucks : List Truck) (orders : List Order)
    (unassigned_orders : List Order) : Except String Analysis := do
  let assignment_rate ← assignmentRateE assignments orders
  let (avg_d, min_d, max_d, tot_d) ← distanceStatsE assignments
  let (tot_c, avg_c) ← costStatsE assignments
  let assigned_volume ← assignedVolumeE assignments orders
  let total_volume := (orders.map fun o => o.volume).sum
  let volume_rate ← volumeRateE assigned_volume total_volume
  let avg_util ← avgUtilE trucks
  let stats ← priorityStatsE orders
  pure { total_assignments := assignments.length
         total_orders := orders.length
         unassigned_orders := unassigned_orders.length
         assignment_rate := assignment_rate
         avg_distance_km := avg_d
         min_distance_km := min_d
         max_distance_km := max_d
         total_distance_km := tot_d
         total_cost_euro := tot_c
         avg_cost_euro := avg_c
         assigned_volume_tons := assigned_volume
         total_volume_tons := total_volume
         volume_assignment_rate := volume_rate
         avg_truck_utilization := avg_util
         priority_statistics := stats }

/-- The capacity invariant for one produced assignment: the assignment
links an input order and a truck whose capacity is that of an input
truck with the same id, and the order volume fits that capacity. -/
def CapOK (ts : List Truck) (os : List Order) (a : Assignment) : Prop :=
  ∃ t : Truck, ∃ o ∈ os, a.truck_id = t.truck_id ∧ a.order_id = o.order_id ∧
    o.volume ≤ t.capacity ∧
    ∃ t0 ∈ ts, t0.truck_id = t.truck_id ∧ t0.capacity = t.capacity

end Claude2

/-- Concrete truck used to exercise the Dispo feasibility analyzer. -/
noncomputable def wTruckD : Dispo.Truck where
  truck_id := "LKW1"
  location := (52.5, 13.4)
  capacity_kg := 10000
  available_from_h := 7
  available_until_h := 18

/-- Concrete order used to exercise the Dispo feasibility analyzer. -/
noncomputable def wOrderD : Dispo.Order where
  order_id := "AUF1"
  loading_site := (52.5, 13.4)
  unloading_site := (52.6, 13.5)
  weight_kg := 500
  loading_window_early_h := 8
  loading_window_late_h := 12
  loading_duration_h := 1
  unloading_duration_h := 1
  priority := 1

/-- Concrete truck with capacity 25 and no initial load, used to run
the PriorityFirst strategy. -/
noncomputable def wTruckC : Claude2.Truck where
  truck_id := "LKW1"
  lat := 52.52
  lon := 13.405
  capacity := 25
  current_load := 0
  truck_type := .STANDARD
  driver_name := "A"
  max_driving_time := 8
  cost_per_km := 1.2

/-- Concrete urgent order of volume 8 for the PriorityFirst run. -/
noncomputable def wOrder1 : Claude2.Order where
  order_id := "AUF1"
  pickup_lat := 52.52
  pickup_lon := 13.405
  delivery_lat := 52.53
  delivery_lon := 13.41
  volume := 8
  priority := .URGENT
  customer := "C1"
  deadline_hours := 6
  value := 1000
  assigned_truck := none

/-- Concrete high-priority order of volume 8 for the PriorityFirst run. -/
noncomputable def wOrder2 : Claude2.Order where
  order_id := "AUF2"
  pickup_lat := 52.49
  pickup_lon := 13.39
  delivery_lat := 52.51
  delivery_lon := 13.43
  volume := 8
  priority := .HIGH
  customer := "C2"
  deadline_hours := 12
  value := 1000
  assigned_truck := none

/-! ## Helper lemmas -/

theorem travel_time_h_real (d : ℝ) :
    Dispo.calculate_travel_time_h d = ((d / Dispo.AVERAGE_SPEED_KMH : ℝ) : EReal) := by
  rw [Dispo.calculate_travel_time_h, if_neg]
  rw [Dispo.AVERAGE_SPEED_KMH]
  norm_num

theorem travel_time_toReal (d : ℝ) :
    Dispo.travel_time d = d / Dispo.AVERAGE_SPEED_KMH := by
  rw [Dispo.travel_time, travel_time_h_real, EReal.toReal_coe]

theorem haversine_a_symm (p q : ℝ × ℝ) :
    Dispo.haversine_a p q = Dispo.haversine_a q p := by
  have hs : ∀ x y : ℝ, Real.sin ((x - y) / 2) ^ 2 = Real.sin ((y - x) / 2) ^ 2 := by
    intro x y
    rw [show (x - y) / 2 = -((y - x) / 2) by ring, Real.sin_neg, neg_sq]
  simp only [Dispo.haversine_a]
  rw [hs, mul_comm (Real.cos (Dispo.radians p.1)),
    hs (Dispo.radians q.2) (Dispo.radians p.2)]

theorem haversine_c_symm (p q : ℝ × ℝ) :
    Dispo.haversine_c p q = Dispo.haversine_c q p := by
  rw [Dispo.haversine_c, Dispo.haversine_c, haversine_a_symm]

theorem haversine_c_nonneg (p q : ℝ × ℝ) : 0 ≤ Dispo.haversine_c p q := by
  rw [Dispo.haversine_c]
  have h1 : 0 ≤ Real.arcsin (Real.sqrt (Dispo.haversine_a p q)) :=
    Real.arcsin_nonneg.mpr (Real.sqrt_nonneg _)
  linarith

theorem round2_nonneg {x : ℝ} (hx : 0 ≤ x) : 0 ≤ Dispo.round2 x := by
  rw [Dispo.round2]
  have h1 : (0 : ℤ) ≤ round (x * 100) := by
    rw [round_eq]
    exact Int.floor_nonneg.mpr (by linarith)
  positivity


/-! ## Claim theorems: distance, travel time, feasibility, objective -/

/-- C10: `calculate_distance` is symmetric and non-negative for every
two `(lat, lon)` points, and the canonical (dispo.py) variant returns
a multiple of 0.01 km; the archived (claude-2.py) variant is likewise
symmetric and non-negative. -/
theorem c10_distance_symmetric_nonneg (p q : ℝ × ℝ) :
    Dispo.calculate_distance p q = Dispo.calculate_distance q p ∧
    0 ≤ Dispo.calculate_distance p q ∧
    (∃ k : ℤ, Dispo.calculate_distance p q = (k : ℝ) / 100) ∧
    Claude2.calculate_distance p q = Claude2.calculate_distance q p ∧
    0 ≤ Claude2.calculate_distance p q := by
  refine ⟨?_, ?_, ?_, ?_, ?_⟩
  · rw [Dispo.calculate_distance, Dispo.calculate_distance, haversine_c_symm]
  · exact round2_nonneg (mul_nonneg (haversine_c_nonneg p q) (by norm_num))
  · exact ⟨round (Dispo.haversine_c p q * 6371 * 100), rfl⟩
  · rw [Claude2.calculate_distance, Claude2.calculate_distance, haversine_c_symm]
  · exact mul_nonneg (haversine_c_nonneg p q) (by norm_num)

/-- C6: the configured average speed is the positive constant 80, so
`calculate_travel_time_h` never takes its infinity branch: it always
returns the finite linear travel time `distance / speed`. -/
theorem c6_travel_time_never_infinite :
    0 < Dispo.AVERAGE_SPEED_KMH ∧
    (∀ d : ℝ, Dispo.calculate_travel_time_h d =
      ((d / Dispo.AVERAGE_SPEED_KMH : ℝ) : EReal)) ∧
    (∀ d : ℝ, Dispo.calculate_travel_time_h d ≠ ⊤) := by
  refine ⟨by rw [Dispo.AVERAGE_SPEED_KMH]; norm_num, travel_time_h_real, ?_⟩
  intro d
  rw [travel_time_h_real]
  exact EReal.coe_ne_top _

/-- C8: feasibility analysis is deterministic: two runs of
`determine_permissible_pairs_and_values` on identical truck and order
lists return identical feasibility maps. -/
theorem c8_feasibility_deterministic (ts1 ts2 : List Dispo.Truck)
    (os1 os2 : List Dispo.Order) (hts : ts1 = ts2) (hos : os1 = os2) :
    Dispo.determine_permissible_pairs_and_values ts1 os1 =
      Dispo.determine_permissible_pairs_and_values ts2 os2 := by
  rw [hts, hos]

theorem c8_witness :
    Dispo.determine_permissible_pairs_and_values [wTruckD] [wOrderD] =
      Dispo.determine_permissible_pairs_and_values [wTruckD] [wOrderD] :=
  c8_feasibility_deterministic [wTruckD] [wTruckD] [wOrderD] [wOrderD] rfl rfl

/-- C5: the greedy score is exactly
`DISTANCE_WEIGHT * distance + PRIORITY_WEIGHT * priorityScore +
CAPACITY_WEIGHT * (1 - volume / capacity) +
TIME_WEIGHT * max 0 (travelTime / deadline)`, and the priority score is
inverse to priority: urgent carries the smallest value. -/
theorem c5_greedy_score_formula :
    (∀ (t : Claude2.Truck) (o : Claude2.Order),
      (Claude2.calculate_assignment_score t o).1 =
        Claude2.DISTANCE_WEIGHT *
            Claude2.calculate_distance t.position o.pickup_position +
          Claude2.PRIORITY_WEIGHT * o.priority_score +
          Claude2.CAPACITY_WEIGHT * (1 - o.volume / t.capacity) +
          Claude2.TIME_WEIGHT *
            max 0 (Claude2.estimate_travel_time
              (Claude2.calculate_distance t.position o.pickup_position) /
                o.deadline_hours)) ∧
    (∀ o : Claude2.Order,
      Claude2.Order.priority_score { o with priority := .URGENT } <
          Claude2.Order.priority_score { o with priority := .HIGH } ∧
      Claude2.Order.priority_score { o with priority := .HIGH } <
          Claude2.Order.priority_score { o with priority := .NORMAL } ∧
      Claude2.Order.priority_score { o with priority := .NORMAL } <
          Claude2.Order.priority_score { o with priority := .LOW } ∧
      Claude2.Order.priority_score { o with priority := .URGENT } ≤
          o.priority_score) := by
  constructor
  · intro t o
    simp only [Claude2.calculate_assignment_score]
    ring
  · intro o
    refine ⟨by simp [Claude2.Order.priority_score]; norm_num,
      by simp [Claude2.Order.priority_score]; norm_num,
      by simp [Claude2.Order.priority_score]; norm_num, ?_⟩
    rcases o with ⟨_, _, _, _, _, _, p, _, _, _, _⟩
    cases p <;> simp [Claude2.Order.priority_score] <;> norm_num

/-- C4: in the model built by `create_lp_model` over the feasible pairs,
the sense is maximize and the objective is the sum, over the feasible
pairs, of `PRIORITY_WEIGHT_FACTOR * priorityWeight(order) -
DISTANCE_COST_FACTOR * (approachDistance + transportDistance)` times
the binary variable of the pair. -/
theorem c4_optimal_objective (ts : List Dispo.Truck) (os : List Dispo.Order) :
    (Dispo.create_lp_model ts os
        (Dispo.determine_permissible_pairs_and_values ts os)).sense =
      Dispo.ObjSense.maximize ∧
    ∀ sol : Dispo.Sol,
      (Dispo.create_lp_model ts os
          (Dispo.determine_permissible_pairs_and_values ts os)).objective sol =
        ((Dispo.determinePairsTO ts os).map fun p =>
          (Dispo.PRIORITY_WEIGHT_FACTOR * ((Dispo.PRIORITIES_MAP_get p.2.priority : ℤ) : ℝ) -
            Dispo.DISTANCE_COST_FACTOR *
              (Dispo.calculate_distance p.1.location p.2.loading_site +
                Dispo.calculate_distance p.2.loading_site p.2.unloading_site)) *
          Dispo.xval sol (p.1.truck_id, p.2.order_id)).sum := by
  refine ⟨rfl, fun sol => ?_⟩
  simp only [Dispo.create_lp_model, Dispo.determine_permissible_pairs_and_values,
    List.map_map]
  rfl

/-- C1: a `(truck, order)` pair from the input lists is retained by the
feasibility analyzer `determine_permissible_pairs_and_values` exactly
when the weight fits the capacity and the forward-simulated temporal
chain fits: the loading start
`max(availableFrom + travelTime(approach), windowEarly)` is at most
`windowLate - loadingDuration + 0.01` and the unloading end is at most
`availableUntil + 0.01`; the result map holds exactly these pairs,
keyed by their ids. -/
theorem c1_feasible_pair_iff (ts : List Dispo.Truck) (os : List Dispo.Order)
    (t : Dispo.Truck) (o : Dispo.Order) (ht : t ∈ ts) (ho : o ∈ os) :
    ((t, o) ∈ Dispo.determinePairsTO ts os ↔
      (o.weight_kg ≤ t.capacity_kg ∧
        max (t.available_from_h +
            Dispo.travel_time (Dispo.calculate_distance t.location o.loading_site))
          o.loading_window_early_h ≤
          o.loading_window_late_h - o.loading_duration_h + 0.01 ∧
        max (t.available_from_h +
            Dispo.travel_time (Dispo.calculate_distance t.location o.loading_site))
          o.loading_window_early_h + o.loading_duration_h +
          Dispo.travel_time (Dispo.calculate_distance o.loading_site o.unloading_site) +
          o.unloading_duration_h ≤ t.available_until_h + 0.01)) ∧
    Dispo.determine_permissible_pairs_and_values ts os =
      (Dispo.determinePairsTO ts os).map fun p =>
        ((p.1.truck_id, p.2.order_id), Dispo.mkPairRecord p.1 p.2) := by
  refine ⟨?_, rfl⟩
  rw [Dispo.determinePairsTO, List.mem_filter]
  simp only [List.pair_mem_product, ht, ho, true_and, and_true,
    decide_eq_true_eq]
  simp only [Dispo.permissible, not_lt, gt_iff_lt,
    Dispo.loading_start_calc_h, Dispo.arrival_loading_site_truck_h,
    Dispo.approach_distance, Dispo.latest_loading_start_order_h,
    Dispo.unloading_end_calc_h, Dispo.arrival_unloading_site_calc_h,
    Dispo.loading_end_calc_h, Dispo.transport_distance]

theorem c1_witness :
    ((wTruckD, wOrderD) ∈ Dispo.determinePairsTO [wTruckD] [wOrderD] ↔
      (wOrderD.weight_kg ≤ wTruckD.capacity_kg ∧
        max (wTruckD.available_from_h +
            Dispo.travel_time (Dispo.calculate_distance wTruckD.location wOrderD.loading_site))
          wOrderD.loading_window_early_h ≤
          wOrderD.loading_window_late_h - wOrderD.loading_duration_h + 0.01 ∧
        max (wTruckD.available_from_h +
            Dispo.travel_time (Dispo.calculate_distance wTruckD.location wOrderD.loading_site))
          wOrderD.loading_window_early_h + wOrderD.loading_duration_h +
          Dispo.travel_time (Dispo.calculate_distance wOrderD.loading_site wOrderD.unloading_site) +
          wOrderD.unloading_duration_h ≤ wTruckD.available_until_h + 0.01)) ∧
    Dispo.determine_permissible_pairs_and_values [wTruckD] [wOrderD] =
      (Dispo.determinePairsTO [wTruckD] [wOrderD]).map fun p =>
        ((p.1.truck_id, p.2.order_id), Dispo.mkPairRecord p.1 p.2) :=
  c1_feasible_pair_iff [wTruckD] [wOrderD] wTruckD wOrderD (by simp) (by simp)

/-! ## Helper lemmas for the analyzer (C7) -/

theorem except_bind_ok {ε α β : Type} (a : α) (f : α → Except ε β) :
    (Except.ok a >>= f : Except ε β) = f a := rfl

theorem except_pure_eq {ε α : Type} (a : α) :
    (pure a : Except ε α) = Except.ok a := rfl

theorem pydiv_ok {a b : ℝ} (hb : b ≠ 0) :
    Claude2.pydiv a b = .ok (a / b) := by
  rw [Claude2.pydiv, if_neg hb]

theorem assignmentRateE_empty (orders : List Claude2.Order) :
    Claude2.assignmentRateE [] orders = .ok 0 := by
  cases orders with
  | nil => rfl
  | cons o os =>
    rw [Claude2.assignmentRateE, if_neg (by simp)]
    have hb : ((o :: os).length : ℝ) ≠ 0 := by
      rw [List.length_cons]
      exact_mod_cast Nat.succ_ne_zero os.length
    rw [show (([] : List Claude2.Assignment).length : ℝ) = 0 by simp,
      pydiv_ok hb]
    simp [except_bind_ok, except_pure_eq]

theorem distanceStatsE_empty :
    Claude2.distanceStatsE [] = .ok (0, 0, 0, 0) := rfl

theorem costStatsE_empty : Claude2.costStatsE [] = .ok (0, 0) := rfl

theorem assignedVolumeE_empty (orders : List Claude2.Order) :
    Claude2.assignedVolumeE [] orders = .ok 0 := rfl

theorem volumeRateE_zero (tv : ℝ) : Claude2.volumeRateE 0 tv = .ok 0 := by
  by_cases h : tv = 0
  · rw [Claude2.volumeRateE, if_pos h]; rfl
  · rw [Claude2.volumeRateE, if_neg h, pydiv_ok h]
    simp [except_bind_ok, except_pure_eq]

theorem avgUtilE_ok (trucks : List Claude2.Truck) :
    ∃ u, Claude2.avgUtilE trucks = .ok u := by
  cases trucks with
  | nil => exact ⟨0, rfl⟩
  | cons t ts =>
    have hlen : (((t :: ts).map Claude2.Truck.utilization_percent).length : ℝ) ≠ 0 := by
      rw [List.length_map, List.length_cons]
      exact_mod_cast Nat.succ_ne_zero ts.length
    exact ⟨_, by
      simp only [Claude2.avgUtilE]
      rw [if_neg (by simp)]
      exact pydiv_ok hlen⟩

theorem priorityStat_ok (orders : List Claude2.Order) (p : Claude2.Priority) :
    ∃ s, Claude2.priorityStat orders p = .ok s := by
  rw [Claude2.priorityStat]
  cases hb : (orders.filter fun o => o.priority = p).isEmpty with
  | true => exact ⟨_, rfl⟩
  | false =>
    have hne : (orders.filter fun o => o.priority = p) ≠ [] := by
      intro h
      rw [h] at hb
      simp at hb
    have hlen : (((orders.filter fun o => o.priority = p).length : ℕ) : ℝ) ≠ 0 := by
      have h1 : 0 < (orders.filter fun o => o.priority = p).length :=
        List.length_pos.mpr hne
      exact_mod_cast Nat.pos_iff_ne_zero.mp h1
    refine ⟨Claude2.PriorityStat.mk (orders.filter fun o => o.priority = p).length
      ((orders.filter fun o => o.priority = p).filter fun o => o.is_assigned).length
      ((((((orders.filter fun o => o.priority = p).filter
        fun o => o.is_assigned).length : ℕ) : ℝ) /
          (((orders.filter fun o => o.priority = p).length : ℕ) : ℝ)) * 100), ?_⟩
    simp only [hb, Bool.false_eq_true, if_false, pydiv_ok hlen,
      except_bind_ok, except_pure_eq]

theorem priorityStatsE_ok (orders : List Claude2.Order) :
    ∃ l, Claude2.priorityStatsE orders = .ok l := by
  obtain ⟨s1, h1⟩ := priorityStat_ok orders .URGENT
  obtain ⟨s2, h2⟩ := priorityStat_ok orders .HIGH
  obtain ⟨s3, h3⟩ := priorityStat_ok orders .NORMAL
  obtain ⟨s4, h4⟩ := priorityStat_ok orders .LOW
  refine ⟨[(.URGENT, s1), (.HIGH, s2), (.NORMAL, s3), (.LOW, s4)], ?_⟩
  simp only [Claude2.priorityStatsE, List.mapM_cons, List.mapM_nil, h1, h2,
    h3, h4, except_bind_ok, except_pure_eq]

/-- C7: the result analyzer tolerates an empty assignment set: for every
truck list, order list and unassigned list, `analyze_assignments`
succeeds (no exception, in particular no division by zero) and the
assignment count, distance totals and averages, cost totals and
averages, assigned volume and the two assignment rates are all zero. -/
theorem c7_analyzer_tolerates_empty (trucks : List Claude2.Truck)
    (orders unassigned : List Claude2.Order) :
    ∃ r : Claude2.Analysis,
      Claude2.analyze_assignments [] trucks orders unassigned = .ok r ∧
      r.total_assignments = 0 ∧ r.assignment_rate = 0 ∧
      r.total_distance_km = 0 ∧ r.avg_distance_km = 0 ∧
      r.min_distance_km = 0 ∧ r.max_distance_km = 0 ∧
      r.total_cost_euro = 0 ∧ r.avg_cost_euro = 0 ∧
      r.assigned_volume_tons = 0 ∧ r.volume_assignment_rate = 0 := by
  obtain ⟨u, hu⟩ := avgUtilE_ok trucks
  obtain ⟨l, hl⟩ := priorityStatsE_ok orders
  simp only [Claude2.analyze_assignments, assignmentRateE_empty,
    distanceStatsE_empty, costStatsE_empty, assignedVolumeE_empty,
    volumeRateE_zero, hu, hl, except_bind_ok, except_pure_eq]
  exact ⟨_, rfl, rfl, rfl, rfl, rfl, rfl, rfl, rfl, rfl, rfl, rfl⟩

/-! ## Helper lemmas for the LP constraints (C2) -/

theorem two_le_length_of_mem {α : Type} {l : List α} {a b : α}
    (ha : a ∈ l) (hb : b ∈ l) (hab : a ≠ b) : 2 ≤ l.length := by
  induction l with
  | nil => cases ha
  | cons x xs ih =>
    rcases List.mem_cons.mp ha with rfl | ha2
    · rcases List.mem_cons.mp hb with rfl | hb2
      · exact absurd rfl hab
      · have h1 : 0 < xs.length := List.length_pos.mpr (List.ne_nil_of_mem hb2)
        rw [List.length_cons]
        omega
    · have h1 : 0 < xs.length := List.length_pos.mpr (List.ne_nil_of_mem ha2)
      rw [List.length_cons]
      omega

theorem countP_two_le {α : Type} (p : α → Bool) {l : List α} {a b : α}
    (ha : a ∈ l) (hb : b ∈ l) (hpa : p a = true) (hpb : p b = true)
    (hab : a ≠ b) : 2 ≤ l.countP p := by
  rw [List.countP_eq_length_filter]
  exact two_le_length_of_mem (List.mem_filter.mpr ⟨ha, hpa⟩)
    (List.mem_filter.mpr ⟨hb, hpb⟩) hab

theorem xval_sum_eq_countP {α : Type} (sol : Dispo.Sol)
    (f : α → String × String) (l : List α) :
    (l.map fun a => Dispo.xval sol (f a)).sum =
      ((l.countP fun a => sol (f a)) : ℕ) := by
  induction l with
  | nil => simp
  | cons x xs ih =>
    rw [List.map_cons, List.sum_cons, List.countP_cons, ih]
    cases h : sol (f x) with
    | true => simp [Dispo.xval, h]; ring
    | false => simp [Dispo.xval, h]

theorem extract_mem_unpack (pairs : List ((String × String) × Dispo.PairRecord))
    (sol : Dispo.Sol) (ts : List Dispo.Truck) (os : List Dispo.Order)
    (k : String × String)
    (hk : k ∈ Dispo.extract_assignment_keys pairs sol ts os) :
    k ∈ pairs.map Prod.fst ∧ sol k = true ∧
      (∃ t ∈ ts, t.truck_id = k.1) ∧ (∃ o ∈ os, o.order_id = k.2) := by
  rw [Dispo.extract_assignment_keys, List.mem_filter, List.mem_filter] at hk
  obtain ⟨⟨hmem, hsol⟩, hids⟩ := hk
  rw [Bool.and_eq_true, List.any_eq_true, List.any_eq_true] at hids
  obtain ⟨⟨t, ht, hteq⟩, o, ho, hoeq⟩ := hids
  exact ⟨hmem, hsol, ⟨t, ht, beq_iff_eq.mp hteq⟩, ⟨o, ho, beq_iff_eq.mp hoeq⟩⟩

theorem extract_order_id_inj (ts : List Dispo.Truck) (os : List Dispo.Order)
    (pairs : List ((String × String) × Dispo.PairRecord)) (sol : Dispo.Sol)
    (hord : ∀ o ∈ os, Dispo.order_constraint (pairs.map Prod.fst) ts o sol) :
    ∀ k1 ∈ Dispo.extract_assignment_keys pairs sol ts os,
      ∀ k2 ∈ Dispo.extract_assignment_keys pairs sol ts os,
        k1.2 = k2.2 → k1 = k2 := by
  intro k1 hk1 k2 hk2 heq
  by_contra hne
  have hfst : k1.1 ≠ k2.1 := fun h => hne (Prod.ext h heq)
  obtain ⟨hm1, hs1, ⟨t1, ht1, hid1⟩, o1, ho1, hoid1⟩ :=
    extract_mem_unpack pairs sol ts os k1 hk1
  obtain ⟨hm2, hs2, ⟨t2, ht2, hid2⟩, _⟩ :=
    extract_mem_unpack pairs sol ts os k2 hk2
  have hcon := hord o1 ho1
  rw [Dispo.order_constraint] at hcon
  simp only [xval_sum_eq_countP] at hcon
  have hcon2 : (List.filter
      (fun t => decide ((t.truck_id, o1.order_id) ∈ pairs.map Prod.fst)) ts).countP
      (fun t => sol (t.truck_id, o1.order_id)) ≤ 1 := by
    exact_mod_cast hcon
  have hkey1 : (t1.truck_id, o1.order_id) = k1 := by
    rw [hid1, hoid1]
  have hkey2 : (t2.truck_id, o1.order_id) = k2 := by
    rw [hid2, hoid1, heq]
  have ht1f : t1 ∈ List.filter
      (fun t => decide ((t.truck_id, o1.order_id) ∈ pairs.map Prod.fst)) ts :=
    List.mem_filter.mpr ⟨ht1, by rw [hkey1]; simpa using hm1⟩
  have ht2f : t2 ∈ List.filter
      (fun t => decide ((t.truck_id, o1.order_id) ∈ pairs.map Prod.fst)) ts :=
    List.mem_filter.mpr ⟨ht2, by rw [hkey2]; simpa using hm2⟩
  have hne12 : t1 ≠ t2 := by
    intro h
    apply hfst
    rw [← hid1, ← hid2, h]
  have h2 := countP_two_le (fun t => sol (t.truck_id, o1.order_id)) ht1f ht2f
    (show sol (t1.truck_id, o1.order_id) = true by rw [hkey1]; exact hs1)
    (show sol (t2.truck_id, o1.order_id) = true by rw [hkey2]; exact hs2) hne12
  omega

theorem extract_truck_id_inj (ts : List Dispo.Truck) (os : List Dispo.Order)
    (pairs : List ((String × String) × Dispo.PairRecord)) (sol : Dispo.Sol)
    (htr : ∀ t ∈ ts, Dispo.truck_constraint (pairs.map Prod.fst) os t sol) :
    ∀ k1 ∈ Dispo.extract_assignment_keys pairs sol ts os,
      ∀ k2 ∈ Dispo.extract_assignment_keys pairs sol ts os,
        k1.1 = k2.1 → k1 = k2 := by
  intro k1 hk1 k2 hk2 heq
  by_contra hne
  have hsnd : k1.2 ≠ k2.2 := fun h => hne (Prod.ext heq h)
  obtain ⟨hm1, hs1, ⟨t1, ht1, hid1⟩, o1, ho1, hoid1⟩ :=
    extract_mem_unpack pairs sol ts os k1 hk1
  obtain ⟨hm2, hs2, _, o2, ho2, hoid2⟩ :=
    extract_mem_unpack pairs sol ts os k2 hk2
  have hcon := htr t1 ht1
  rw [Dispo.truck_constraint] at hcon
  simp only [xval_sum_eq_countP] at hcon
  have hcon2 : (List.filter
      (fun o => decide ((t1.truck_id, o.order_id) ∈ pairs.map Prod.fst)) os).countP
      (fun o => sol (t1.truck_id, o.order_id)) ≤ 1 := by
    exact_mod_cast hcon
  have hkey1 : (t1.truck_id, o1.order_id) = k1 := by
    rw [hid1, hoid1]
  have hkey2 : (t1.truck_id, o2.order_id) = k2 := by
    rw [hid1, hoid2, heq]
  have ho1f : o1 ∈ List.filter
      (fun o => decide ((t1.truck_id, o.order_id) ∈ pairs.map Prod.fst)) os :=
    List.mem_filter.mpr ⟨ho1, by rw [hkey1]; simpa using hm1⟩
  have ho2f : o2 ∈ List.filter
      (fun o => decide ((t1.truck_id, o.order_id) ∈ pairs.map Prod.fst)) os :=
    List.mem_filter.mpr ⟨ho2, by rw [hkey2]; simpa using hm2⟩
  have hne12 : o1 ≠ o2 := by
    intro h
    apply hsnd
    rw [← hoid1, ← hoid2, h]
  have h2 := countP_two_le (fun o => sol (t1.truck_id, o.order_id)) ho1f ho2f
    (show sol (t1.truck_id, o1.order_id) = true by rw [hkey1]; exact hs1)
    (show sol (t1.truck_id, o2.order_id) = true by rw [hkey2]; exact hs2) hne12
  omega

/-- C2: for every 0/1 solution satisfying the constraints of the model
built by `create_lp_model` (at most one truck per order, at most one
order per truck), the assignments extracted by
`extract_and_show_results` repeat no order id and no truck id.  The
key list is duplicate-free because the source keys are Python dict
keys. -/
theorem c2_no_duplicate_ids (ts : List Dispo.Truck) (os : List Dispo.Order)
    (pairs : List ((String × String) × Dispo.PairRecord)) (sol : Dispo.Sol)
    (hnd : (pairs.map Prod.fst).Nodup)
    (hfeas : (Dispo.create_lp_model ts os pairs).feasibleSol sol) :
    ((Dispo.extract_assignment_keys pairs sol ts os).map Prod.snd).Nodup ∧
    ((Dispo.extract_assignment_keys pairs sol ts os).map Prod.fst).Nodup := by
  obtain ⟨hord, htr⟩ := hfeas
  have hnde : (Dispo.extract_assignment_keys pairs sol ts os).Nodup :=
    (hnd.filter _).filter _
  exact ⟨List.Nodup.map_on (extract_order_id_inj ts os pairs sol hord) hnde,
    List.Nodup.map_on (extract_truck_id_inj ts os pairs sol htr) hnde⟩

theorem c2_witness :
    ((Dispo.extract_assignment_keys [] (fun _ => false) [] []).map Prod.snd).Nodup ∧
    ((Dispo.extract_assignment_keys [] (fun _ => false) [] []).map Prod.fst).Nodup :=
  c2_no_duplicate_ids [] [] [] (fun _ => false) (by simp)
    ⟨by simp, by simp⟩

/-! ## Helper lemmas for the greedy strategies (C3, C9) -/

theorem eraseFirst_subset {l : List Claude2.Order} {o a : Claude2.Order}
    (ha : a ∈ Claude2.eraseFirst l o) : a ∈ l := by
  induction l with
  | nil => simp [Claude2.eraseFirst] at ha
  | cons x xs ih =>
    rw [Claude2.eraseFirst] at ha
    by_cases hx : x = o
    · rw [if_pos hx] at ha
      exact List.mem_cons_of_mem _ ha
    · rw [if_neg hx] at ha
      rcases List.mem_cons.mp ha with rfl | ha2
      · exact List.mem_cons_self _ _
      · exact List.mem_cons_of_mem _ (ih ha2)

theorem pyInsert_mem {α : Type} {le : α → α → Bool} {x a : α} {l : List α}
    (ha : a ∈ Claude2.pyInsert le x l) : a = x ∨ a ∈ l := by
  induction l with
  | nil => simp [Claude2.pyInsert] at ha; exact Or.inl ha
  | cons b bs ih =>
    rw [Claude2.pyInsert] at ha
    by_cases hle : le x b
    · rw [if_pos hle] at ha
      rcases List.mem_cons.mp ha with rfl | h2
      · exact Or.inl rfl
      · exact Or.inr h2
    · rw [if_neg hle] at ha
      rcases List.mem_cons.mp ha with rfl | h2
      · exact Or.inr (List.mem_cons_self _ _)
      · rcases ih h2 with h3 | h3
        · exact Or.inl h3
        · exact Or.inr (List.mem_cons_of_mem _ h3)

theorem pySorted_mem {α : Type} {le : α → α → Bool} {a : α} {l : List α}
    (ha : a ∈ Claude2.pySorted le l) : a ∈ l := by
  induction l with
  | nil => simp [Claude2.pySorted] at ha
  | cons x xs ih =>
    rw [Claude2.pySorted, List.foldr_cons] at ha
    rcases pyInsert_mem ha with rfl | h2
    · exact List.mem_cons_self _ _
    · exact List.mem_cons_of_mem _ (ih h2)

theorem updateBest_some
    {best : Option (ℕ × Claude2.Truck × ℝ × Claude2.ScoreDetails)}
    {i : ℕ} {t : Claude2.Truck} {sd : ℝ × Claude2.ScoreDetails}
    {j : ℕ} {u : Claude2.Truck} {s : ℝ} {d : Claude2.ScoreDetails}
    (h : Claude2.updateBest best i t sd = some (j, u, s, d)) :
    u = t ∨ best = some (j, u, s, d) := by
  cases best with
  | none =>
    simp only [Claude2.updateBest, Option.some.injEq, Prod.mk.injEq] at h
    exact Or.inl h.2.1.symm
  | some x =>
    obtain ⟨j0, u0, bs, bd⟩ := x
    simp only [Claude2.updateBest] at h
    by_cases hlt : sd.1 < bs
    · rw [if_pos hlt] at h
      simp only [Option.some.injEq, Prod.mk.injEq] at h
      exact Or.inl h.2.1.symm
    · rw [if_neg hlt] at h
      exact Or.inr h

theorem findBestTruckAux_spec (P : Claude2.Truck → Prop) (o : Claude2.Order) :
    ∀ (l : List Claude2.Truck) (i : ℕ)
      (best : Option (ℕ × Claude2.Truck × ℝ × Claude2.ScoreDetails)),
      (∀ j u s d, best = some (j, u, s, d) → P u ∧ u.can_handle_order o) →
      (∀ t ∈ l, P t) →
      ∀ j u s d, Claude2.findBestTruckAux o l i best = some (j, u, s, d) →
        P u ∧ u.can_handle_order o := by
  intro l
  induction l with
  | nil =>
    intro i best hbest _ j u s d h
    rw [Claude2.findBestTruckAux] at h
    exact hbest j u s d h
  | cons t ts ih =>
    intro i best hbest hl j u s d h
    rw [Claude2.findBestTruckAux] at h
    by_cases hc : t.can_handle_order o
    · rw [if_pos hc] at h
      refine ih (i + 1) _ ?_ (fun t2 ht2 => hl t2 (List.mem_cons_of_mem _ ht2))
        j u s d h
      intro j2 u2 s2 d2 hub
      rcases updateBest_some hub with rfl | hb
      · exact ⟨hl u2 (List.mem_cons_self _ _), hc⟩
      · exact hbest j2 u2 s2 d2 hb
    · rw [if_neg hc] at h
      exact ih (i + 1) best hbest (fun t2 ht2 => hl t2 (List.mem_cons_of_mem _ ht2))
        j u s d h

theorem findBestTruck_spec (P : Claude2.Truck → Prop) (o : Claude2.Order)
    (l : List Claude2.Truck) (hl : ∀ t ∈ l, P t)
    (j : ℕ) (u : Claude2.Truck) (s : ℝ) (d : Claude2.ScoreDetails)
    (h : Claude2.findBestTruck o l = some (j, u, s, d)) :
    P u ∧ u.can_handle_order o :=
  findBestTruckAux_spec P o l 0 none (by intro j2 u2 s2 d2 h2; cases h2) hl j u s d h

theorem updateBestOrder_some
    {best : Option (Claude2.Order × ℝ × Claude2.ScoreDetails)}
    {o : Claude2.Order} {sd : ℝ × Claude2.ScoreDetails}
    {b : Claude2.Order} {s : ℝ} {d : Claude2.ScoreDetails}
    (h : Claude2.updateBestOrder best o sd = some (b, s, d)) :
    b = o ∨ best = some (b, s, d) := by
  cases best with
  | none =>
    simp only [Claude2.updateBestOrder, Option.some.injEq, Prod.mk.injEq] at h
    exact Or.inl h.1.symm
  | some x =>
    obtain ⟨b0, bs, bd⟩ := x
    simp only [Claude2.updateBestOrder] at h
    by_cases hlt : sd.1 < bs
    · rw [if_pos hlt] at h
      simp only [Option.some.injEq, Prod.mk.injEq] at h
      exact Or.inl h.1.symm
    · rw [if_neg hlt] at h
      exact Or.inr h

theorem findBestOrderAux_spec (P : Claude2.Order → Prop) (t : Claude2.Truck) :
    ∀ (l : List Claude2.Order)
      (best : Option (Claude2.Order × ℝ × Claude2.ScoreDetails)),
      (∀ b s d, best = some (b, s, d) → P b ∧ t.can_handle_order b) →
      (∀ o ∈ l, P o) →
      ∀ b s d, Claude2.findBestOrderAux t l best = some (b, s, d) →
        P b ∧ t.can_handle_order b := by
  intro l
  induction l with
  | nil =>
    intro best hbest _ b s d h
    rw [Claude2.findBestOrderAux] at h
    exact hbest b s d h
  | cons o os ih =>
    intro best hbest hl b s d h
    rw [Claude2.findBestOrderAux] at h
    by_cases hc : t.can_handle_order o
    · rw [if_pos hc] at h
      refine ih _ ?_ (fun o2 ho2 => hl o2 (List.mem_cons_of_mem _ ho2)) b s d h
      intro b2 s2 d2 hb2
      rcases updateBestOrder_some hb2 with rfl | hb
      · exact ⟨hl b2 (List.mem_cons_self _ _), hc⟩
      · exact hbest b2 s2 d2 hb
    · rw [if_neg hc] at h
      exact ih best hbest (fun o2 ho2 => hl o2 (List.mem_cons_of_mem _ ho2)) b s d h

theorem findBestOrder_spec (P : Claude2.Order → Prop) (t : Claude2.Truck)
    (l : List Claude2.Order) (hl : ∀ o ∈ l, P o)
    (b : Claude2.Order) (s : ℝ) (d : Claude2.ScoreDetails)
    (h : Claude2.findBestOrder t l = some (b, s, d)) :
    P b ∧ t.can_handle_order b :=
  findBestOrderAux_spec P t l none (by intro b2 s2 d2 h2; cases h2) hl b s d h

theorem assignStep_foldl_inv (I : Claude2.Truck → Prop)
    (hI : ∀ (t : Claude2.Truck) (o : Claude2.Order), I t →
      t.can_handle_order o → 0 ≤ o.volume →
      I { t with current_load := t.current_load + o.volume }) :
    ∀ (l : List Claude2.Order) (st : Claude2.PFState),
      (∀ t ∈ st.trucks, I t) → (∀ o ∈ l, 0 ≤ o.volume) →
      ∀ t ∈ (List.foldl Claude2.assignStep st l).trucks, I t := by
  intro l
  induction l with
  | nil =>
    intro st hst _ t ht
    exact hst t ht
  | cons o rest ih =>
    intro st hst hvol t ht
    rw [List.foldl_cons] at ht
    refine ih (Claude2.assignStep st o) ?_
      (fun o2 ho2 => hvol o2 (List.mem_cons_of_mem _ ho2)) t ht
    intro u hu
    cases hfb : Claude2.findBestTruck o st.trucks with
    | none =>
      rw [Claude2.assignStep, hfb] at hu
      exact hst u hu
    | some x =>
      obtain ⟨i, tb, s, d⟩ := x
      rw [Claude2.assignStep, hfb] at hu
      rcases List.mem_or_eq_of_mem_set hu with h2 | rfl
      · exact hst u h2
      · have hspec := findBestTruck_spec I o st.trucks hst i tb s d hfb
        exact hI tb o hspec.1 hspec.2 (hvol o (List.mem_cons_self _ _))

theorem assignStep_foldl_capok (ts0 : List Claude2.Truck)
    (os0 : List Claude2.Order) :
    ∀ (l : List Claude2.Order) (st : Claude2.PFState),
      (∀ t ∈ st.trucks, 0 ≤ t.current_load ∧
        ∃ t0 ∈ ts0, t0.truck_id = t.truck_id ∧ t0.capacity = t.capacity) →
      (∀ o ∈ l, o ∈ os0 ∧ 0 ≤ o.volume) →
      (∀ a ∈ st.assignments, Claude2.CapOK ts0 os0 a) →
      ∀ a ∈ (List.foldl Claude2.assignStep st l).assignments,
        Claude2.CapOK ts0 os0 a := by
  intro l
  induction l with
  | nil =>
    intro st _ _ hass a ha
    exact hass a ha
  | cons o rest ih =>
    intro st hst hl hass a ha
    rw [List.foldl_cons] at ha
    have hstep : ∀ u ∈ (Claude2.assignStep st o).trucks,
        0 ≤ u.current_load ∧
        ∃ t0 ∈ ts0, t0.truck_id = u.truck_id ∧ t0.capacity = u.capacity := by
      intro u hu
      cases hfb : Claude2.findBestTruck o st.trucks with
      | none =>
        rw [Claude2.assignStep, hfb] at hu
        exact hst u hu
      | some x =>
        obtain ⟨i, tb, s, d⟩ := x
        rw [Claude2.assignStep, hfb] at hu
        rcases List.mem_or_eq_of_mem_set hu with h2 | rfl
        · exact hst u h2
        · have hspec := findBestTruck_spec
            (fun t => 0 ≤ t.current_load ∧
              ∃ t0 ∈ ts0, t0.truck_id = t.truck_id ∧ t0.capacity = t.capacity)
            o st.trucks hst i tb s d hfb
          refine ⟨add_nonneg hspec.1.1 (hl o (List.mem_cons_self _ _)).2, ?_⟩
          obtain ⟨t0, ht0, hid, hcap⟩ := hspec.1.2
          exact ⟨t0, ht0, hid, hcap⟩
    have hstepass : ∀ a ∈ (Claude2.assignStep st o).assignments,
        Claude2.CapOK ts0 os0 a := by
      intro a2 ha2
      cases hfb : Claude2.findBestTruck o st.trucks with
      | none =>
        rw [Claude2.assignStep, hfb] at ha2
        exact hass a2 ha2
      | some x =>
        obtain ⟨i, tb, s, d⟩ := x
        rw [Claude2.assignStep, hfb] at ha2
        rcases List.mem_append.mp ha2 with h2 | h2
        · exact hass a2 h2
        · have ha3 : a2 = Claude2.mkAssignment tb o s d := by
            simpa using h2
          have hspec := findBestTruck_spec
            (fun t => 0 ≤ t.current_load ∧
              ∃ t0 ∈ ts0, t0.truck_id = t.truck_id ∧ t0.capacity = t.capacity)
            o st.trucks hst i tb s d hfb
          have hch := hspec.2
          rw [Claude2.Truck.can_handle_order, Claude2.Truck.available_capacity] at hch
          refine ⟨tb, o, (hl o (List.mem_cons_self _ _)).1, ?_, ?_, ?_, hspec.1.2⟩
          · rw [ha3]; rfl
          · rw [ha3]; rfl
          · have h0 : 0 ≤ tb.current_load := hspec.1.1
            linarith
    exact ih (Claude2.assignStep st o) hstep
      (fun o2 ho2 => hl o2 (List.mem_cons_of_mem _ ho2)) hstepass a ha

theorem greedyStep_foldl_capok (ts0 : List Claude2.Truck)
    (os0 : List Claude2.Order) :
    ∀ (l : List Claude2.Truck) (st : List Claude2.Order × List Claude2.Assignment),
      (∀ t ∈ l, 0 ≤ t.current_load ∧ t ∈ ts0) →
      (∀ o ∈ st.1, o ∈ os0 ∧ 0 ≤ o.volume) →
      (∀ a ∈ st.2, Claude2.CapOK ts0 os0 a) →
      ∀ a ∈ (List.foldl Claude2.greedyStep st l).2,
        Claude2.CapOK ts0 os0 a := by
  intro l
  induction l with
  | nil =>
    intro st _ _ hass a ha
    exact hass a ha
  | cons t rest ih =>
    intro st hts hos hass a ha
    rw [List.foldl_cons] at ha
    have hstepos : ∀ o ∈ (Claude2.greedyStep st t).1, o ∈ os0 ∧ 0 ≤ o.volume := by
      intro o ho
      cases hfb : Claude2.findBestOrder t st.1 with
      | none =>
        rw [Claude2.greedyStep, hfb] at ho
        exact hos o ho
      | some x =>
        obtain ⟨b, s, d⟩ := x
        rw [Claude2.greedyStep, hfb] at ho
        exact hos o (eraseFirst_subset ho)
    have hstepass : ∀ a2 ∈ (Claude2.greedyStep st t).2,
        Claude2.CapOK ts0 os0 a2 := by
      intro a2 ha2
      cases hfb : Claude2.findBestOrder t st.1 with
      | none =>
        rw [Claude2.greedyStep, hfb] at ha2
        exact hass a2 ha2
      | some x =>
        obtain ⟨b, s, d⟩ := x
        rw [Claude2.greedyStep, hfb] at ha2
        rcases List.mem_append.mp ha2 with h2 | h2
        · exact hass a2 h2
        · have ha3 : a2 = Claude2.mkAssignment t b s d := by
            simpa using h2
          have hspec := findBestOrder_spec
            (fun o => o ∈ os0 ∧ 0 ≤ o.volume) t st.1 hos b s d hfb
          have hch := hspec.2
          rw [Claude2.Truck.can_handle_order, Claude2.Truck.available_capacity] at hch
          have ht := hts t (List.mem_cons_self _ _)
          refine ⟨t, b, hspec.1.1, ?_, ?_, ?_, t, ht.2, rfl, rfl⟩
          · rw [ha3]; rfl
          · rw [ha3]; rfl
          · have h0 : 0 ≤ t.current_load := ht.1
            linarith
    exact ih (Claude2.greedyStep st t)
      (fun t2 ht2 => hts t2 (List.mem_cons_of_mem _ ht2)) hstepos hstepass a ha

/-- C3: every produced assignment respects capacity.  For the Optimal
strategy, every pair retained by the feasibility analyzer (hence every
pair owning a decision variable) satisfies `weight <= capacity`, so a
pair with no variable can never be chosen; for both greedy strategies,
every produced assignment links an input order to a truck of an input
truck id and capacity with `volume <= capacity`, because a commit only
happens after `can_handle_order`. -/
theorem c3_capacity_invariant (ts : List Claude2.Truck)
    (os : List Claude2.Order)
    (hload : ∀ t ∈ ts, 0 ≤ t.current_load)
    (hvol : ∀ o ∈ os, 0 ≤ o.volume) :
    (∀ (ts2 : List Dispo.Truck) (os2 : List Dispo.Order),
      ∀ p ∈ Dispo.determinePairsTO ts2 os2, p.2.weight_kg ≤ p.1.capacity_kg) ∧
    (∀ a ∈ (Claude2.GreedyNearestStrategy.assign ts os).1,
      Claude2.CapOK ts os a) ∧
    (∀ a ∈ (Claude2.PriorityFirstStrategy.assign ts os).1,
      Claude2.CapOK ts os a) := by
  refine ⟨?_, ?_, ?_⟩
  · intro ts2 os2 p hp
    rw [Dispo.determinePairsTO, List.mem_filter] at hp
    have hperm : Dispo.permissible p.1 p.2 := by
      simpa using hp.2
    exact not_lt.mp hperm.1
  · intro a ha
    refine greedyStep_foldl_capok ts os (Claude2.pySorted Claude2.capacityGe ts)
      (os.filter fun o => !o.is_assigned, []) ?_ ?_ (by intro a2 ha2; cases ha2)
      a ha
    · intro t ht
      have ht2 : t ∈ ts := pySorted_mem ht
      exact ⟨hload t ht2, ht2⟩
    · intro o ho
      have ho2 : o ∈ os := (List.mem_filter.mp ho).1
      exact ⟨ho2, hvol o ho2⟩
  · intro a ha
    refine assignStep_foldl_capok ts os
      (Claude2.pySorted Claude2.priorityLe (os.filter fun o => !o.is_assigned))
      { trucks := ts, assignments := [],
        avail := os.filter fun o => !o.is_assigned } ?_ ?_
      (by intro a2 ha2; cases ha2) a ha
    · intro t ht
      exact ⟨hload t ht, t, ht, rfl, rfl⟩
    · intro o ho
      have ho2 : o ∈ os := (List.mem_filter.mp (pySorted_mem ho)).1
      exact ⟨ho2, hvol o ho2⟩

theorem c3_witness :
    (∀ (ts2 : List Dispo.Truck) (os2 : List Dispo.Order),
      ∀ p ∈ Dispo.determinePairsTO ts2 os2, p.2.weight_kg ≤ p.1.capacity_kg) ∧
    (∀ a ∈ (Claude2.GreedyNearestStrategy.assign [] []).1,
      Claude2.CapOK [] [] a) ∧
    (∀ a ∈ (Claude2.PriorityFirstStrategy.assign [] []).1,
      Claude2.CapOK [] [] a) :=
  c3_capacity_invariant [] [] (by simp) (by simp)

theorem findBestTruck_singleton (o : Claude2.Order) (t : Claude2.Truck)
    (h : t.can_handle_order o) :
    Claude2.findBestTruck o [t] =
      some (0, t, (Claude2.calculate_assignment_score t o).1,
        (Claude2.calculate_assignment_score t o).2) := by
  rw [Claude2.findBestTruck, Claude2.findBestTruckAux, if_pos h,
    Claude2.findBestTruckAux]
  rfl

/-- C9: in the PriorityFirst strategy the truck pool is never reduced,
so one truck can receive several assignments in a run (witnessed by a
concrete run in which truck LKW1 receives both orders), yet the load
invariant `current_load <= capacity` (together with non-negativity of
the load) holds after every commit step and at the end of the run,
because each commit is guarded by `can_handle_order`. -/
theorem c9_priority_first_loads (ts : List Claude2.Truck)
    (os : List Claude2.Order)
    (hinv : ∀ t ∈ ts, 0 ≤ t.current_load ∧ t.current_load ≤ t.capacity)
    (hvol : ∀ o ∈ os, 0 ≤ o.volume) :
    (∀ (l : List Claude2.Order) (st : Claude2.PFState),
      (∀ t ∈ st.trucks, 0 ≤ t.current_load ∧ t.current_load ≤ t.capacity) →
      (∀ o ∈ l, 0 ≤ o.volume) →
      ∀ t ∈ (List.foldl Claude2.assignStep st l).trucks,
        0 ≤ t.current_load ∧ t.current_load ≤ t.capacity) ∧
    (∀ t ∈ (Claude2.priorityFirstRun ts os).trucks,
      0 ≤ t.current_load ∧ t.current_load ≤ t.capacity) ∧
    (Claude2.priorityFirstRun [wTruckC] [wOrder1, wOrder2]).assignments.map
      Claude2.Assignment.truck_id = ["LKW1", "LKW1"] := by
  have hI : ∀ (t : Claude2.Truck) (o : Claude2.Order),
      (0 ≤ t.current_load ∧ t.current_load ≤ t.capacity) →
      t.can_handle_order o → 0 ≤ o.volume →
      (0 ≤ ({ t with current_load := t.current_load + o.volume
        } : Claude2.Truck).current_load ∧
      ({ t with current_load := t.current_load + o.volume
        } : Claude2.Truck).current_load ≤
        ({ t with current_load := t.current_load + o.volume
        } : Claude2.Truck).capacity) := by
    intro t o hto hch hv
    rw [Claude2.Truck.can_handle_order, Claude2.Truck.available_capacity] at hch
    constructor
    · exact add_nonneg hto.1 hv
    · show t.current_load + o.volume ≤ t.capacity
      linarith [hto.1]
  refine ⟨fun l st hst hl =>
    assignStep_foldl_inv _ hI l st hst hl, ?_, ?_⟩
  · intro t ht
    refine assignStep_foldl_inv _ hI _ _ hinv ?_ t ht
    intro o ho
    exact hvol o ((List.mem_filter.mp (pySorted_mem ho)).1)
  · have hch1 : wTruckC.can_handle_order wOrder1 := by
      rw [Claude2.Truck.can_handle_order, Claude2.Truck.available_capacity]
      simp only [wTruckC, wOrder1]
      norm_num
    have hch2 : ({ wTruckC with
        current_load := wTruckC.current_load + wOrder1.volume
        } : Claude2.Truck).can_handle_order wOrder2 := by
      rw [Claude2.Truck.can_handle_order, Claude2.Truck.available_capacity]
      simp only [wTruckC, wOrder1, wOrder2]
      norm_num
    have e1 := findBestTruck_singleton wOrder1 wTruckC hch1
    have e2 := findBestTruck_singleton wOrder2
      ({ wTruckC with current_load := wTruckC.current_load + wOrder1.volume })
      hch2
    have hs : Claude2.pySorted Claude2.priorityLe
        (List.filter (fun o => !o.is_assigned) [wOrder1, wOrder2]) =
        [wOrder1, wOrder2] := rfl
    show (List.foldl Claude2.assignStep
        { trucks := [wTruckC], assignments := [],
          avail := List.filter (fun o => !o.is_assigned) [wOrder1, wOrder2] }
        (Claude2.pySorted Claude2.priorityLe
          (List.filter (fun o => !o.is_assigned) [wOrder1, wOrder2]))).assignments.map
        Claude2.Assignment.truck_id = ["LKW1", "LKW1"]
    rw [hs, List.foldl_cons, List.foldl_cons, List.foldl_nil]
    have step1 : Claude2.assignStep
        { trucks := [wTruckC], assignments := [],
          avail := List.filter (fun o => !o.is_assigned) [wOrder1, wOrder2] }
        wOrder1 =
        { trucks := [{ wTruckC with
            current_load := wTruckC.current_load + wOrder1.volume }],
          assignments := [Claude2.mkAssignment wTruckC wOrder1
            (Claude2.calculate_assignment_score wTruckC wOrder1).1
            (Claude2.calculate_assignment_score wTruckC wOrder1).2],
          avail := Claude2.eraseFirst
            (List.filter (fun o => !o.is_assigned) [wOrder1, wOrder2]) wOrder1 } := by
      simp only [Claude2.assignStep, e1, List.set_cons_zero, List.nil_append]
    rw [step1]
    simp only [Claude2.assignStep, e2, List.set_cons_zero]
    simp only [Claude2.mkAssignment, List.singleton_append, List.map_cons,
      List.map_nil, wTruckC]

theorem c9_witness :
    (∀ (l : List Claude2.Order) (st : Claude2.PFState),
      (∀ t ∈ st.trucks, 0 ≤ t.current_load ∧ t.current_load ≤ t.capacity) →
      (∀ o ∈ l, 0 ≤ o.volume) →
      ∀ t ∈ (List.foldl Claude2.assignStep st l).trucks,
        0 ≤ t.current_load ∧ t.current_load ≤ t.capacity) ∧
    (∀ t ∈ (Claude2.priorityFirstRun [wTruckC] [wOrder1, wOrder2]).trucks,
      0 ≤ t.current_load ∧ t.current_load ≤ t.capacity) ∧
    (Claude2.priorityFirstRun [wTruckC] [wOrder1, wOrder2]).assignments.map
      Claude2.Assignment.truck_id = ["LKW1", "LKW1"] :=
  c9_priority_first_loads [wTruckC] [wOrder1, wOrder2]
    (by
      intro t ht
      simp only [List.mem_singleton] at ht
      subst ht
      constructor <;> (simp only [wTruckC]; norm_num))
    (by
      intro o ho
      rcases List.mem_cons.mp ho with rfl | ho2
      · simp only [wOrder1]; norm_num
      · simp only [List.mem_singleton] at ho2
        subst ho2
        simp only [wOrder2]; norm_num)
